import Mathlib

/-!
Verification development for the MECHAStreamlit repository.

The embedding covers the two source files:

* `src/utils_vizu.py` — `get_root_section`: parsing a MECHA root-section
  mesh document (groups, walls, cells) and reconstructing one polygon per
  cell, with a centroid-angular-sort fallback when polygonization fails.
* `app.py` — the parameter-sweep driver: parameter metadata registry,
  value generation (single value / 10-step range), and the sweep loop that
  invokes the simulator once per value and emits one record per
  (value, scenario) pair.

Python floats are embedded as rationals (`ℚ`), Python ints as `Int`
(scenario ids, which the UI restricts to small naturals, as `Nat`).
Fallible Python code (raising exceptions) is embedded in `Except String`.
XML attribute strings are abstracted by `Attr`, which records exactly the
two features the source inspects: Python truthiness of the raw string and
whether `float()` parsing succeeds (and with which value).
-/

namespace Mecha

/-- A 2-D point with rational coordinates. -/
abbrev Pt : Type := ℚ × ℚ

/-- Abstraction of an XML attribute as seen by the source code.
`absent` models `elem.get(k) is None`, `empty` a present empty string,
`num q` a string that `float()` parses to the value `q`, and `bad` a
non-empty string that `float()` rejects with `ValueError`. -/
inductive Attr : Type where
  | absent : Attr
  | empty : Attr
  | num (q : ℚ) : Attr
  | bad : Attr
deriving DecidableEq

/-- Python truthiness of the attribute value: `None` and `""` are falsy,
all other strings are truthy. -/
def Attr.truthy : Attr → Bool
  | .absent => false
  | .empty => false
  | .num _ => true
  | .bad => true

/-- The rational value of the attribute when `float()` parsing succeeds. -/
def Attr.numVal : Attr → Option ℚ
  | .num q => some q
  | _ => none

/-- `float(attr)` as used by the source: succeeds exactly on numeric
strings, raises (`Except.error`) otherwise. -/
def Attr.toFloat : Attr → Except String ℚ
  | .num q => .ok q
  | _ => .error "could not convert string to float"

/-- A `<point x=... y=.../>` element of a wall. -/
structure PointElem : Type where
  x : Attr
  y : Attr
deriving DecidableEq

/-- A `<wall id=...>` element; `points` is `none` when the wall has no
`<points>` child (the source then skips the wall with `continue`). -/
structure WallElem : Type where
  id : Int
  points : Option (List PointElem)
deriving DecidableEq

/-- A `<group id=... name=...?>` declaration; `name` is `none` when the
`name` attribute is absent (`group_elem.get("name")` returns `None`). -/
structure GroupElem : Type where
  id : Int
  name : Option String
deriving DecidableEq

/-- A `<cell id=... group=...>` element with its list of wall references. -/
structure CellElem : Type where
  id : Int
  group : Int
  walls : Option (List Int)
deriving DecidableEq

/-- A structurally parsed mesh document: each optional field is `none`
when the corresponding `root.find(...)` returns `None`. -/
structure MechaDoc : Type where
  cellgroups : Option (List GroupElem)
  walls : Option (List WallElem)
  cells : Option (List CellElem)
deriving DecidableEq

/-- A mesh source: either `ET.parse` raises (malformed structure) or it
yields a document. -/
inductive MeshSource : Type where
  | malformed : MeshSource
  | doc (d : MechaDoc) : MeshSource

/-- One row of the resulting GeoDataFrame: cell id, resolved type label
(`none` embeds Python `None`), and the polygon's exterior coordinates as
passed to the `Polygon` constructor (without the closing repeat). -/
structure Record : Type where
  id_cell : Int
  type : Option String
  geometry : List Pt
deriving DecidableEq

/-- Python `dict` built by repeated assignment, looked up with last-write
wins semantics (later assignments to the same key overwrite). -/
def dget {α : Type} : List (Int × α) → Int → Option α
  | [], _ => none
  | e :: rest, key =>
    match dget rest key with
    | some w => some w
    | none => if e.1 = key then some e.2 else none

/-- The value stored in `group_map` for one `<group>` declaration:
ids 4 and 3 get the reserved labels, every other id gets the declared
`name` attribute verbatim, which is `None` when absent. -/
def resolveGroupName (g : GroupElem) : Option String :=
  if g.id = 4 then some "cortex"
  else if g.id = 3 then some "endodermis"
  else g.name

/-- The `group_map` dict of `get_root_section`, in insertion order. -/
def buildGroupMap (gs : List GroupElem) : List (Int × Option String) :=
  gs.map (fun g => (g.id, resolveGroupName g))

/-- `group_map.get(group_id, f"unknown_group_{group_id}")`: a present key
returns its stored value (even `None`); an absent key returns the
generated placeholder string. -/
def cellType (gm : List (Int × Option String)) (gid : Int) : Option String :=
  match dget gm gid with
  | some v => v
  | none => some ("unknown_group_" ++ toString gid)

/-- The wall-point list comprehension (utils_vizu.py lines 62-66): a point
whose `x` or `y` attribute is falsy (absent or empty) is filtered out;
for the remaining points `float()` is applied and may raise. -/
def parsePoints : List PointElem → Except String (List Pt)
  | [] => .ok []
  | p :: rest =>
    if p.x.truthy && p.y.truthy then
      match p.x.toFloat with
      | .error e => .error e
      | .ok qx =>
        match p.y.toFloat with
        | .error e => .error e
        | .ok qy =>
          match parsePoints rest with
          | .error e => .error e
          | .ok tl => .ok ((qx, qy) :: tl)
    else parsePoints rest

/-- The points of a wall that survive the truthiness guard of the
comprehension: those whose `x` and `y` attributes are present and
non-empty. -/
def keptPoints (ps : List PointElem) : List PointElem :=
  ps.filter (fun p => p.x.truthy && p.y.truthy)

/-- The coordinates of a point whose attributes parse numerically. -/
def pointVal (p : PointElem) : Pt :=
  (p.x.numVal.getD 0, p.y.numVal.getD 0)

/-- One iteration of the wall loop: `none` means the wall contributes no
dict entry (missing `<points>` child, or fewer than 2 parsed points). -/
def parseWall (w : WallElem) : Except String (Option (Int × List Pt)) :=
  match w.points with
  | none => .ok none
  | some ps =>
    match parsePoints ps with
    | .error e => .error e
    | .ok pts => .ok (if 2 ≤ pts.length then some (w.id, pts) else none)

/-- The `wall_linestrings` dict in insertion order. -/
def parseWalls : List WallElem → Except String (List (Int × List Pt))
  | [] => .ok []
  | w :: rest =>
    match parseWall w with
    | .error e => .error e
    | .ok e? =>
      match parseWalls rest with
      | .error e => .error e
      | .ok tl => .ok (match e? with | some e => e :: tl | none => tl)

/-- Consecutive-point segments of a polyline (the edges a LineString
contributes to the polygonization graph). -/
def segsOf (line : List Pt) : List (Pt × Pt) := line.zip line.tail

/-- The endpoint of segment `s` opposite to `v`, when `v` is an endpoint. -/
def otherEnd (s : Pt × Pt) (v : Pt) : Option Pt :=
  if s.1 = v then some s.2 else if s.2 = v then some s.1 else none

/-- Remove the first occurrence of `s` from the list. -/
def removeOnce (s : Pt × Pt) : List (Pt × Pt) → List (Pt × Pt)
  | [] => []
  | t :: rest => if t = s then rest else t :: removeOnce s rest

/-- First `some` produced by `f` over the list, in order. -/
def firstSome {α β : Type} (f : α → Option β) : List α → Option β
  | [] => none
  | a :: rest =>
    match f a with
    | some b => some b
    | none => firstSome f rest

/-- Depth-first search for a simple closed chain of segments: `visited`
is the current path (most recent vertex first, origin `v0` last); a ring
closes when an unused segment leads from the current vertex back to `v0`
and the path already has at least 3 vertices. Fuel bounds the recursion
by the number of segments. -/
def extendRing : Nat → List (Pt × Pt) → Pt → List Pt → Option (List Pt)
  | 0, _, _, _ => none
  | fuel + 1, segs, v0, visited =>
    match visited with
    | [] => none
    | v :: _ =>
      firstSome
        (fun s =>
          match otherEnd s v with
          | none => none
          | some w =>
            if w = v0 then
              if 3 ≤ visited.length then some visited.reverse else none
            else if w ∈ visited then none
            else extendRing fuel (removeOnce s segs) v0 (w :: visited))
        segs

/-- Model of `list(polygonize(cell_lines))` followed by the source's
`polygons[0]` selection: extract the first simple closed ring formed by
the segments of the input polylines, `none` when no ring exists (the
source's empty-`polygons` branch). Simplification: rings of zero area are
not discarded; no input used by a theorem below contains one. -/
def polygonizeFirst (lines : List (List Pt)) : Option (List Pt) :=
  let segs := lines.flatMap segsOf
  firstSome
    (fun s => extendRing (segs.length + 1) (removeOnce s segs) s.1 [s.2, s.1])
    segs

/-- Wedge index of a vector: a value that is strictly monotone in
`np.arctan2(y, x)` across the eight sign-pattern classes of `(x, y)`.
`arctan2` ranges over `(-π, π]`; the third quadrant is lowest, the
negative x-axis (angle `π`) highest, and `arctan2(0, 0) = 0` falls in the
wedge of the non-negative x-axis. -/
def wedge (v : Pt) : ℕ :=
  if v.2 < 0 then (if v.1 < 0 then 0 else if v.1 = 0 then 1 else 2)
  else if v.2 = 0 then (if 0 ≤ v.1 then 3 else 7)
  else (if 0 < v.1 then 4 else if v.1 = 0 then 5 else 6)

/-- 2-D cross product. -/
def cross (a b : Pt) : ℚ := a.1 * b.2 - a.2 * b.1

/-- `arctan2` order on vectors: strictly smaller wedge, or same wedge and
strictly counter-clockwise (within one wedge the angular gap is below
`π/2`, so the cross-product sign decides the order exactly). -/
def AngleLt (a b : Pt) : Prop :=
  wedge a < wedge b ∨ (wedge a = wedge b ∧ 0 < cross a b)

instance (a b : Pt) : Decidable (AngleLt a b) := by
  unfold AngleLt; infer_instance

/-- Insert `x` into an angle-sorted list of points (angles measured about
`c`), keeping the sort stable: `x` goes before the first element that is
not strictly below it. -/
def insertByAngle (c : Pt) (x : Pt) : List Pt → List Pt
  | [] => [x]
  | q :: rest =>
    if AngleLt (q.1 - c.1, q.2 - c.2) (x.1 - c.1, x.2 - c.2)
    then q :: insertByAngle c x rest
    else x :: q :: rest

/-- Stable sort of points by ascending angle about `c`, the embedding of
`arr[np.argsort(angles)]` (stable on the small arrays arising here). -/
def sortByAngle (c : Pt) (pts : List Pt) : List Pt :=
  pts.foldr (insertByAngle c) []

/-- Arithmetic centroid (`arr[:, 0].mean(), arr[:, 1].mean()`). -/
def centroidOf (pts : List Pt) : Pt :=
  ((pts.map Prod.fst).sum / pts.length, (pts.map Prod.snd).sum / pts.length)

/-- The fallback helper `order_polygon` (utils_vizu.py lines 72-80):
sort the points by angle about their centroid and build a `Polygon`.
Shapely's `Polygon` constructor raises `ValueError` when given fewer than
3 coordinates (a linear ring needs 4 including the closing repeat). -/
def order_polygon (pts : List Pt) : Except String (List Pt) :=
  let ordered := sortByAngle (centroidOf pts) pts
  if 3 ≤ ordered.length then .ok ordered
  else .error "A linearring requires at least 4 coordinates"

/-- The wall polylines gathered for one cell, one entry per resolvable
wall reference, in reference order (unknown ids are skipped silently). -/
def gatherLines (wmap : List (Int × List Pt)) (refs : List Int) : List (List Pt) :=
  refs.filterMap (fun r => dget wmap r)

/-- The body of the cell loop (utils_vizu.py lines 86-122): resolve the
type label, gather wall lines and points, try polygonization, fall back
to the centroid angular sort (overriding the type with `"fallback"`), and
keep the record only when a non-empty polygon was produced. -/
def processCell (gm : List (Int × Option String)) (wmap : List (Int × List Pt))
    (c : CellElem) : Except String (Option Record) :=
  let ctype := cellType gm c.group
  let lines := gatherLines wmap (c.walls.getD [])
  let pts := lines.flatten
  if lines.isEmpty then .ok none
  else
    match polygonizeFirst lines with
    | some ring =>
      if ring.isEmpty then .ok none else .ok (some ⟨c.id, ctype, ring⟩)
    | none =>
      match order_polygon pts with
      | .error e => .error e
      | .ok poly =>
        .ok (if poly.isEmpty then none else some ⟨c.id, some "fallback", poly⟩)

/-- The cell loop: records accumulate in cell order; a raised exception
aborts the whole reconstruction. -/
def processCells (gm : List (Int × Option String)) (wmap : List (Int × List Pt)) :
    List CellElem → Except String (List Record)
  | [] => .ok []
  | c :: rest =>
    match processCell gm wmap c with
    | .error e => .error e
    | .ok r? =>
      match processCells gm wmap rest with
      | .error e => .error e
      | .ok tl => .ok (match r? with | some r => r :: tl | none => tl)

/-- `get_root_section`: a structurally unparseable source yields the empty
GeoDataFrame (`.ok []`); otherwise groups, walls and cells are processed
in order, and any exception raised by element parsing or polygon
construction propagates to the caller (`.error`). -/
def get_root_section : MeshSource → Except String (List Record)
  | .malformed => .ok []
  | .doc d =>
    match parseWalls (d.walls.getD []) with
    | .error e => .error e
    | .ok wmap =>
      processCells (buildGroupMap (d.cellgroups.getD [])) wmap (d.cells.getD [])

/-- Twice the signed shoelace area of a coordinate ring. -/
def polyArea2 (pts : List Pt) : ℚ :=
  ((pts.zip (pts.rotate 1)).map (fun pq => pq.1.1 * pq.2.2 - pq.1.2 * pq.2.1)).sum

/-- Parameter metadata relevant to value generation (app.py `PARAM_INFO`;
the display-only `unit` and `desc` strings are omitted). -/
structure ParamInfo : Type where
  default : ℚ
  conversion : ℚ
deriving DecidableEq

/-- The five-entry parameter registry of app.py. -/
def PARAM_INFO : List (String × ParamInfo) :=
  [("cell wall thickness", ⟨1.5, 1⟩),
   ("membrane permeability", ⟨3.0, 1e-5⟩),
   ("AQP contribution to cell membrane permeability", ⟨4.3, 1e-4⟩),
   ("cell wall conductance", ⟨2.4, 1e-4⟩),
   ("plasmodesmata conductance", ⟨5.3, 1e-12⟩)]

/-- The UI mode: a single entered value, or a slider-chosen range. -/
inductive Mode : Type where
  | single (value : ℚ) : Mode
  | range (lo hi : ℚ) : Mode

/-- `np.linspace a b n`: `n` evenly spaced samples from `a` to `b`
inclusive. -/
def linspace (a b : ℚ) (n : ℕ) : List ℚ :=
  (List.range n).map (fun i : ℕ => a + (b - a) * (i : ℚ) / ((n : ℚ) - 1))

/-- The `values` list of app.py (lines 129-153): single mode yields the
entered value times the conversion factor; range mode yields
`np.linspace(selected_min*conv, selected_max*conv, 10)`. -/
def genValues (info : ParamInfo) : Mode → List ℚ
  | .single v => [v * info.conversion]
  | .range lo hi => linspace (lo * info.conversion) (hi * info.conversion) 10

/-- One row of the sweep results table. -/
structure SweepResult : Type where
  parameter_value : ℚ
  kr : ℚ
  hydraulic_scenario : ℕ
deriving DecidableEq

/-- The sweep loop of app.py (lines 175-193): for each value in order the
simulator runs once (the returned pair's second component counts the
invocations), then one record is appended per selected scenario, reading
the conductivity at the scenario's position `i_sc` in the selection list
(`kr[i_sc]`). The simulator is a function of the value written into its
input file before the call. Python raises `IndexError` when `i_sc` is out
of range of `kr`; `getD _ 0` stands for the in-range reads exercised
here. -/
def sweepLoop (mecha : ℚ → List ℚ) (scenarios : List ℕ) :
    List ℚ → List SweepResult × ℕ
  | [] => ([], 0)
  | v :: rest =>
    let kr := mecha v
    let recs := scenarios.enum.map (fun p => ⟨v, kr.getD p.1 0, p.2⟩)
    let out := sweepLoop mecha scenarios rest
    (recs ++ out.1, out.2 + 1)

/-- Modelled from the spec: the simulator collaborator `mecha` (defined in
`src/mecha_function.py`, which is not part of the analysed sources) is "a
callable taking no direct arguments ... returning a fixed-size ordered
sequence of conductivity scalars, indexed by scenario identifier". This
concrete instance returns the vector whose entry at scenario id `i` is
`10 * (i + 1)`, for every parameter value. -/
def mechaSpecModel : ℚ → List ℚ := fun _ => [10, 20, 30, 40, 50]

/-- Concrete mesh for claim C3: structurally parseable, but one wall point
has a present, non-numeric `y` attribute. -/
def c3doc : MechaDoc :=
  ⟨none, some [⟨1, some [⟨.num 0, .bad⟩, ⟨.num 1, .num 1⟩]⟩], some []⟩

/-- Concrete mesh for claim C5: group 7 is declared without a `name`
attribute; its cell's walls form a closed unit triangle, so the
polygonization branch succeeds and the resolved label reaches the
output record unchanged. -/
def c5doc : MechaDoc :=
  ⟨some [⟨7, none⟩],
   some [⟨1, some [⟨.num 0, .num 0⟩, ⟨.num 1, .num 0⟩]⟩,
         ⟨2, some [⟨.num 1, .num 0⟩, ⟨.num 0, .num 1⟩]⟩,
         ⟨3, some [⟨.num 0, .num 1⟩, ⟨.num 0, .num 0⟩]⟩],
   some [⟨1, 7, some [1, 2, 3]⟩]⟩

/-- Concrete mesh for claim C6 (spec section 8 scenario): a single open
2-point wall referenced by cell id 2 with undeclared group id 9. -/
def c6doc : MechaDoc :=
  ⟨none,
   some [⟨1, some [⟨.num 0, .num 0⟩, ⟨.num 1, .num 0⟩]⟩],
   some [⟨2, 9, some [1]⟩]⟩

/-- Concrete mesh for claim C7: two walls forming an open chain
(0,0)-(1,0)-(1,1); the shared endpoint (1,0) is contributed twice. -/
def c7doc : MechaDoc :=
  ⟨none,
   some [⟨1, some [⟨.num 0, .num 0⟩, ⟨.num 1, .num 0⟩]⟩,
         ⟨2, some [⟨.num 1, .num 0⟩, ⟨.num 1, .num 1⟩]⟩],
   some [⟨3, 9, some [1, 2]⟩]⟩

/-- Concrete mesh for claim C10: one wall whose three points are
collinear, so the fallback builds a polygon of zero area. -/
def c10doc : MechaDoc :=
  ⟨none,
   some [⟨1, some [⟨.num 1, .num 0⟩, ⟨.num 2, .num 0⟩, ⟨.num 3, .num 0⟩]⟩],
   some [⟨1, 9, some [1]⟩]⟩

end Mecha

namespace Mecha

/-! ## Tissue group resolution (claims C4 and C5) -/

/-- A successful `group_map` lookup comes from a declaration carrying the
looked-up id, and stores that declaration's resolved name. -/
theorem dget_buildGroupMap_mem (gs : List GroupElem) (k : Int) (w : Option String)
    (h : dget (buildGroupMap gs) k = some w) :
    ∃ g ∈ gs, g.id = k ∧ w = resolveGroupName g := by
  induction gs generalizing w with
  | nil => simp [buildGroupMap, dget] at h
  | cons g rest ih =>
    rw [show buildGroupMap (g :: rest) =
        (g.id, resolveGroupName g) :: buildGroupMap rest from rfl] at h
    simp only [dget] at h
    cases hr : dget (buildGroupMap rest) k with
    | some w2 =>
      rw [hr] at h
      simp only [Option.some.injEq] at h
      obtain ⟨g2, hg2, hk2, hw2⟩ := ih w2 hr
      exact ⟨g2, List.mem_cons_of_mem _ hg2, hk2, h ▸ hw2⟩
    | none =>
      rw [hr] at h
      by_cases hk : g.id = k
      · rw [if_pos hk] at h
        simp only [Option.some.injEq] at h
        exact ⟨g, List.mem_cons_self g rest, hk, h.symm⟩
      · rw [if_neg hk] at h
        cases h

/-- The `group_map` lookup fails exactly when no declaration carries the
looked-up id. -/
theorem dget_buildGroupMap_eq_none (gs : List GroupElem) (k : Int) :
    dget (buildGroupMap gs) k = none ↔ ∀ g ∈ gs, g.id ≠ k := by
  induction gs with
  | nil => simp [buildGroupMap, dget]
  | cons g rest ih =>
    rw [show buildGroupMap (g :: rest) =
        (g.id, resolveGroupName g) :: buildGroupMap rest from rfl]
    simp only [dget]
    cases hr : dget (buildGroupMap rest) k with
    | some w2 =>
      simp only [List.mem_cons]
      constructor
      · intro h; cases h
      · intro h
        have hnone : dget (buildGroupMap rest) k = none :=
          ih.mpr (fun g2 hg2 => h g2 (Or.inr hg2))
        rw [hnone] at hr; cases hr
    | none =>
      by_cases hk : g.id = k
      · rw [if_pos hk]
        constructor
        · intro h; cases h
        · intro h; exact absurd hk (h g (List.mem_cons_self g rest))
      · rw [if_neg hk]
        constructor
        · intro _ g2 hg2
          rcases List.mem_cons.mp hg2 with h1 | h2
          · rw [h1]; exact hk
          · exact ih.mp hr g2 h2
        · intro _; rfl

/-- C4: whenever group id 4 (resp. 3) is declared in the mesh input, that
group id resolves to the label "cortex" (resp. "endodermis"), whatever
`name` the declaration carries and whatever else the input declares. -/
theorem C4_reserved_group_labels (gs : List GroupElem) :
    ((∃ g ∈ gs, g.id = 4) → cellType (buildGroupMap gs) 4 = some "cortex") ∧
    ((∃ g ∈ gs, g.id = 3) → cellType (buildGroupMap gs) 3 = some "endodermis") := by
  constructor
  · intro h
    cases hr : dget (buildGroupMap gs) 4 with
    | none =>
      obtain ⟨g, hg, hk⟩ := h
      exact absurd hk ((dget_buildGroupMap_eq_none gs 4).mp hr g hg)
    | some w =>
      obtain ⟨g, _, hk, hw⟩ := dget_buildGroupMap_mem gs 4 w hr
      simp only [cellType, hr]
      rw [hw]
      simp [resolveGroupName, hk]
  · intro h
    cases hr : dget (buildGroupMap gs) 3 with
    | none =>
      obtain ⟨g, hg, hk⟩ := h
      exact absurd hk ((dget_buildGroupMap_eq_none gs 3).mp hr g hg)
    | some w =>
      obtain ⟨g, _, hk, hw⟩ := dget_buildGroupMap_mem gs 3 w hr
      simp only [cellType, hr]
      rw [hw]
      simp [resolveGroupName, hk]

/-- Witness for C4 at a mesh declaring misleading names for ids 4 and 3. -/
theorem C4_reserved_group_labels_witness :
    cellType (buildGroupMap [⟨4, some "weird"⟩, ⟨3, some "stele"⟩]) 4 = some "cortex" ∧
    cellType (buildGroupMap [⟨4, some "weird"⟩, ⟨3, some "stele"⟩]) 3 = some "endodermis" :=
  ⟨(C4_reserved_group_labels _).1 ⟨⟨4, some "weird"⟩, by simp, rfl⟩,
   (C4_reserved_group_labels _).2 ⟨⟨3, some "stele"⟩, by simp, rfl⟩⟩

/-- C5 (amended): for a group id other than 3 and 4, a declared group
resolves to its `name` attribute verbatim — which is `None`, not a
string placeholder, when the attribute is absent — and an undeclared
group id resolves to the placeholder `unknown_group_<id>`. -/
theorem C5_group_label_resolution :
    (∀ (gs : List GroupElem) (gid : Int) (w : Option String), gid ≠ 3 → gid ≠ 4 →
      dget (buildGroupMap gs) gid = some w → ∃ g ∈ gs, g.id = gid ∧ w = g.name) ∧
    (∀ (gs : List GroupElem) (gid : Int), (∀ g ∈ gs, g.id ≠ gid) →
      cellType (buildGroupMap gs) gid = some ("unknown_group_" ++ toString gid)) := by
  constructor
  · intro gs gid w h3 h4 h
    obtain ⟨g, hg, hk, hw⟩ := dget_buildGroupMap_mem gs gid w h
    refine ⟨g, hg, hk, ?_⟩
    rw [hw, resolveGroupName, if_neg (by rw [hk]; exact h4),
      if_neg (by rw [hk]; exact h3)]
  · intro gs gid h
    have hn := (dget_buildGroupMap_eq_none gs gid).mpr h
    simp [cellType, hn]

/-- Witness for C5 (amended) at a mesh declaring group 7 without a name:
the declared lookup yields the stored `none`, and the undeclared id 9
yields the placeholder. -/
theorem C5_group_label_resolution_witness :
    (∃ g ∈ [(⟨7, none⟩ : GroupElem)], g.id = 7 ∧ (none : Option String) = g.name) ∧
    cellType (buildGroupMap [(⟨7, none⟩ : GroupElem)]) 9 = some ("unknown_group_" ++ toString (9 : Int)) :=
  ⟨C5_group_label_resolution.1 [⟨7, none⟩] 7 none (by decide) (by decide) rfl,
   C5_group_label_resolution.2 [⟨7, none⟩] 9 (by decide)⟩

end Mecha

namespace Mecha

/-! ## Wall point parsing (claims C2 and C3) -/

/-- `float()` succeeds on an attribute whose text is numeric. -/
theorem Attr.toFloat_eq_ok (a : Attr) (q : ℚ) (h : a.numVal = some q) :
    a.toFloat = .ok q := by
  cases a with
  | num q2 =>
    simp only [Attr.numVal, Option.some.injEq] at h
    rw [Attr.toFloat, h]
  | absent => simp [Attr.numVal] at h
  | empty => simp [Attr.numVal] at h
  | bad => simp [Attr.numVal] at h

/-- `float()` raises on an attribute whose text is not numeric. -/
theorem Attr.toFloat_eq_error (a : Attr) (h : a.numVal = none) :
    a.toFloat = .error "could not convert string to float" := by
  cases a with
  | num q2 => simp [Attr.numVal] at h
  | absent => rfl
  | empty => rfl
  | bad => rfl

/-- When every point surviving the truthiness guard parses numerically,
the comprehension returns exactly those points' coordinates, in order. -/
theorem parsePoints_ok (ps : List PointElem)
    (h : ∀ p ∈ keptPoints ps, (p.x.numVal).isSome ∧ (p.y.numVal).isSome) :
    parsePoints ps = .ok ((keptPoints ps).map pointVal) := by
  induction ps with
  | nil => rfl
  | cons p rest ih =>
    by_cases hp : (p.x.truthy && p.y.truthy) = true
    · have hkept : keptPoints (p :: rest) = p :: keptPoints rest := by
        simp [keptPoints, List.filter_cons, hp]
      rw [hkept] at h
      have hpx := (h p (List.mem_cons_self p _)).1
      have hpy := (h p (List.mem_cons_self p _)).2
      obtain ⟨qx, hqx⟩ := Option.isSome_iff_exists.mp hpx
      obtain ⟨qy, hqy⟩ := Option.isSome_iff_exists.mp hpy
      have ihh := ih (fun p2 hp2 => h p2 (List.mem_cons_of_mem _ hp2))
      rw [hkept]
      simp only [parsePoints, hp, if_true, Attr.toFloat_eq_ok _ _ hqx,
        Attr.toFloat_eq_ok _ _ hqy, ihh, List.map_cons]
      simp [pointVal, hqx, hqy]
    · have hkept : keptPoints (p :: rest) = keptPoints rest := by
        simp [keptPoints, List.filter_cons, hp]
      rw [hkept] at h
      rw [hkept]
      simp only [parsePoints, hp, if_false]
      exact ih h

/-- When some point surviving the truthiness guard fails float parsing,
the comprehension raises. -/
theorem parsePoints_error (ps : List PointElem)
    (h : ∃ p ∈ keptPoints ps, p.x.numVal = none ∨ p.y.numVal = none) :
    parsePoints ps = .error "could not convert string to float" := by
  induction ps with
  | nil => simp [keptPoints] at h
  | cons p rest ih =>
    by_cases hp : (p.x.truthy && p.y.truthy) = true
    · have hkept : keptPoints (p :: rest) = p :: keptPoints rest := by
        simp [keptPoints, List.filter_cons, hp]
      rw [hkept] at h
      cases hx : p.x.numVal with
      | none =>
        simp only [parsePoints, hp, if_true, Attr.toFloat_eq_error _ hx]
      | some qx =>
        cases hy : p.y.numVal with
        | none =>
          simp only [parsePoints, hp, if_true, Attr.toFloat_eq_ok _ _ hx,
            Attr.toFloat_eq_error _ hy]
        | some qy =>
          obtain ⟨p2, hmem, hbad⟩ := h
          rcases List.mem_cons.mp hmem with h1 | h2
          · rw [h1] at hbad
            rcases hbad with hb | hb
            · rw [hx] at hb; cases hb
            · rw [hy] at hb; cases hb
          · have ihh := ih ⟨p2, h2, hbad⟩
            simp only [parsePoints, hp, if_true, Attr.toFloat_eq_ok _ _ hx,
              Attr.toFloat_eq_ok _ _ hy, ihh]
    · have hkept : keptPoints (p :: rest) = keptPoints rest := by
        simp [keptPoints, List.filter_cons, hp]
      rw [hkept] at h
      simp only [parsePoints, hp, if_false]
      exact ih h

/-- C2 (amended): in a wall element, a point whose `x` or `y` attribute
is missing or empty is dropped individually while the remaining points
are kept in order, and the wall is omitted exactly when fewer than 2
points remain; but a point whose coordinate attribute is present and
non-empty yet fails numeric parsing raises an exception (it is not
dropped, and the wall and the whole parse are lost). -/
theorem C2_wall_point_filtering :
    (∀ (i : Int) (ps : List PointElem),
      (∀ p ∈ keptPoints ps, (p.x.numVal).isSome ∧ (p.y.numVal).isSome) →
      parseWall ⟨i, some ps⟩ =
        .ok (if 2 ≤ (keptPoints ps).length
             then some (i, (keptPoints ps).map pointVal) else none)) ∧
    (∀ (i : Int) (ps : List PointElem),
      (∃ p ∈ keptPoints ps, p.x.numVal = none ∨ p.y.numVal = none) →
      parseWall ⟨i, some ps⟩ = .error "could not convert string to float") := by
  constructor
  · intro i ps h
    simp only [parseWall, parsePoints_ok ps h, List.length_map]
  · intro i ps h
    simp only [parseWall, parsePoints_error ps h]

/-- Witness for C2 (amended): a wall whose middle point lacks its `x`
attribute keeps its other two points; a wall with one non-numeric
coordinate raises. -/
theorem C2_wall_point_filtering_witness :
    parseWall ⟨5, some [⟨.num 0, .num 0⟩, ⟨.absent, .num 1⟩, ⟨.num 1, .num 1⟩]⟩ =
      .ok (if 2 ≤ (keptPoints [⟨.num 0, .num 0⟩, ⟨.absent, .num 1⟩, ⟨.num 1, .num 1⟩]).length
           then some (5, (keptPoints [⟨.num 0, .num 0⟩, ⟨.absent, .num 1⟩, ⟨.num 1, .num 1⟩]).map pointVal)
           else none) ∧
    parseWall ⟨6, some [⟨.bad, .num 1⟩]⟩ = .error "could not convert string to float" :=
  ⟨C2_wall_point_filtering.1 5 _ (by decide),
   C2_wall_point_filtering.2 6 _ ⟨⟨.bad, .num 1⟩, by simp [keptPoints, Attr.truthy], Or.inl rfl⟩⟩

/-- C2 counterexample: a wall containing one malformed point and two
valid points raises `ValueError` instead of dropping the point and
keeping the wall with its 2 remaining points, refuting the claim that a
malformed point never causes an exception. -/
theorem C2_counterexample :
    parseWall ⟨1, some [⟨.bad, .num 1⟩, ⟨.num 0, .num 0⟩, ⟨.num 1, .num 1⟩]⟩ =
      .error "could not convert string to float" := rfl

/-- An exception raised while parsing any wall propagates out of the
wall loop. -/
theorem parseWalls_error_of_mem (ws : List WallElem)
    (h : ∃ w ∈ ws, ∃ e, parseWall w = .error e) :
    ∃ e, parseWalls ws = .error e := by
  induction ws with
  | nil => simp at h
  | cons w rest ih =>
    cases hw : parseWall w with
    | error e => exact ⟨e, by simp [parseWalls, hw]⟩
    | ok v =>
      obtain ⟨w2, hmem, e2, he2⟩ := h
      rcases List.mem_cons.mp hmem with h1 | h2
      · rw [h1, hw] at he2; cases he2
      · obtain ⟨e3, he3⟩ := ih ⟨w2, h2, e2, he2⟩
        exact ⟨e3, by simp [parseWalls, hw, he3]⟩

/-- C3 (amended): a structurally unparseable mesh source yields the empty
section without raising; but a structurally parseable document with
malformed element content (a wall point whose present coordinate text
fails float parsing) raises to the caller instead of yielding an empty
result. -/
theorem C3_parse_error_behaviour :
    get_root_section .malformed = .ok [] ∧
    (∀ d : MechaDoc, (∃ w ∈ d.walls.getD [], ∃ e, parseWall w = .error e) →
      ∃ e, get_root_section (.doc d) = .error e) := by
  refine ⟨rfl, ?_⟩
  intro d h
  obtain ⟨e, he⟩ := parseWalls_error_of_mem _ h
  exact ⟨e, by simp [get_root_section, he]⟩

/-- Witness for C3 (amended) at the concrete document `c3doc`. -/
theorem C3_parse_error_behaviour_witness :
    get_root_section .malformed = .ok [] ∧
    (∃ e, get_root_section (.doc c3doc) = .error e) :=
  ⟨C3_parse_error_behaviour.1,
   C3_parse_error_behaviour.2 c3doc
     ⟨⟨1, some [⟨.num 0, .bad⟩, ⟨.num 1, .num 1⟩]⟩, by simp [c3doc], ⟨_, rfl⟩⟩⟩

/-- C3 counterexample: the structurally parseable document `c3doc`, whose
single wall has a point with non-numeric `y` text, makes
`get_root_section` raise rather than return an empty result, refuting
the claim that malformed element content never raises. -/
theorem C3_counterexample :
    get_root_section (.doc c3doc) = .error "could not convert string to float" := rfl

end Mecha

namespace Mecha

/-! ## Fallback polygon construction (claims C6, C7, C10) -/

/-- Inserting a point grows an angle-sorted list by one. -/
theorem insertByAngle_length (c x : Pt) (l : List Pt) :
    (insertByAngle c x l).length = l.length + 1 := by
  induction l with
  | nil => rfl
  | cons q rest ih =>
    simp only [insertByAngle]
    by_cases h : AngleLt (q.1 - c.1, q.2 - c.2) (x.1 - c.1, x.2 - c.2)
    · rw [if_pos h]
      simp [ih]
    · rw [if_neg h]
      simp

/-- The angular sort is a permutation in length: it keeps every point,
duplicates included. -/
theorem sortByAngle_length (c : Pt) (pts : List Pt) :
    (sortByAngle c pts).length = pts.length := by
  induction pts with
  | nil => rfl
  | cons p rest ih =>
    show (insertByAngle c p (List.foldr (insertByAngle c) [] rest)).length =
      rest.length + 1
    rw [insertByAngle_length]
    rw [show List.foldr (insertByAngle c) [] rest = sortByAngle c rest from rfl, ih]

/-- A list whose `isEmpty` test fails is not nil. -/
theorem ne_nil_of_not_isEmpty {α : Type} {l : List α} (h : ¬ l.isEmpty = true) :
    l ≠ [] := by
  intro hn
  rw [hn] at h
  exact h rfl

/-- C7 (amended): when polygonization yields no ring but the gathered
walls contribute at least 3 points, the cell is emitted with the reserved
"fallback" tag and its polygon is the angular sort, about the centroid,
of every contributed point — so the vertex count equals the total number
of contributed points counted with multiplicity (duplicated shared
endpoints included), not the number of distinct points. -/
theorem C7_fallback_polygon (gm : List (Int × Option String))
    (wmap : List (Int × List Pt)) (c : CellElem)
    (hne : gatherLines wmap (c.walls.getD []) ≠ [])
    (hpoly : polygonizeFirst (gatherLines wmap (c.walls.getD [])) = none)
    (hlen : 3 ≤ (gatherLines wmap (c.walls.getD [])).flatten.length) :
    processCell gm wmap c =
      .ok (some ⟨c.id, some "fallback",
        sortByAngle (centroidOf (gatherLines wmap (c.walls.getD [])).flatten)
          (gatherLines wmap (c.walls.getD [])).flatten⟩) ∧
    (sortByAngle (centroidOf (gatherLines wmap (c.walls.getD [])).flatten)
        (gatherLines wmap (c.walls.getD [])).flatten).length =
      (gatherLines wmap (c.walls.getD [])).flatten.length := by
  have hsl := sortByAngle_length
    (centroidOf (gatherLines wmap (c.walls.getD [])).flatten)
    (gatherLines wmap (c.walls.getD [])).flatten
  refine ⟨?_, hsl⟩
  have hie : (gatherLines wmap (c.walls.getD [])).isEmpty = false := by
    rcases hc : gatherLines wmap (c.walls.getD []) with _ | ⟨a, l⟩
    · exact absurd hc hne
    · rfl
  have hord : order_polygon (gatherLines wmap (c.walls.getD [])).flatten =
      .ok (sortByAngle (centroidOf (gatherLines wmap (c.walls.getD [])).flatten)
        (gatherLines wmap (c.walls.getD [])).flatten) := by
    simp only [order_polygon]
    rw [hsl, if_pos hlen]
  have hpe : (sortByAngle (centroidOf (gatherLines wmap (c.walls.getD [])).flatten)
      (gatherLines wmap (c.walls.getD [])).flatten).isEmpty = false := by
    rcases hs : sortByAngle (centroidOf (gatherLines wmap (c.walls.getD [])).flatten)
        (gatherLines wmap (c.walls.getD [])).flatten with _ | ⟨a, l⟩
    · have h0 : (gatherLines wmap (c.walls.getD [])).flatten.length = 0 := by
        rw [← hsl, hs]
        rfl
      omega
    · rfl
  simp [processCell, hie, hpoly, hord, hpe]

/-- Witness for C7 (amended) at the open two-wall chain of `c7doc`. -/
theorem C7_fallback_polygon_witness :
    processCell [] [(1, [((0:ℚ), (0:ℚ)), (1, 0)]), (2, [((1:ℚ), (0:ℚ)), (1, 1)])]
        ⟨3, 9, some [1, 2]⟩ =
      .ok (some ⟨3, some "fallback",
        sortByAngle (centroidOf [((0:ℚ), (0:ℚ)), (1, 0), (1, 0), (1, 1)])
          [((0:ℚ), (0:ℚ)), (1, 0), (1, 0), (1, 1)]⟩) ∧
    (sortByAngle (centroidOf [((0:ℚ), (0:ℚ)), (1, 0), (1, 0), (1, 1)])
        [((0:ℚ), (0:ℚ)), (1, 0), (1, 0), (1, 1)]).length = 4 :=
  C7_fallback_polygon [] [(1, [((0:ℚ), (0:ℚ)), (1, 0)]), (2, [((1:ℚ), (0:ℚ)), (1, 1)])]
    ⟨3, 9, some [1, 2]⟩ (by decide) (by decide) (by decide)

/-- C7 counterexample: in `c7doc` the two walls share the endpoint
(1, 0), which is contributed twice; the fallback polygon has 4 vertices
while the walls contribute only 3 distinct points, refuting the
distinct-count clause of the claim. -/
theorem C7_counterexample :
    get_root_section (.doc c7doc) =
      .ok [{ id_cell := 3, type := some "fallback",
             geometry := [(0, 0), (1, 0), (1, 0), (1, 1)] }] ∧
    ([((0:ℚ), (0:ℚ)), (1, 0), (1, 0), (1, 1)] : List Pt).length = 4 ∧
    ([((0:ℚ), (0:ℚ)), (1, 0), (1, 0), (1, 1)] : List Pt).dedup.length = 3 := by
  refine ⟨?_, rfl, by decide⟩
  norm_num [get_root_section, c7doc, parseWalls, parseWall, parsePoints, Attr.truthy,
    Attr.toFloat, buildGroupMap, processCells, processCell, cellType, dget, gatherLines,
    polygonizeFirst, segsOf, firstSome, extendRing, otherEnd, removeOnce, order_polygon,
    sortByAngle, insertByAngle, AngleLt, wedge, cross, centroidOf,
    List.filterMap_cons, List.filterMap_nil, List.flatten, List.sum_cons, List.sum_nil,
    List.map_cons, List.map_nil, List.length_cons, List.length_nil, List.zip,
    List.zipWith, List.tail, List.foldr, List.reverse, List.mem_cons, List.not_mem_nil,
    Option.getD, Function.comp, List.flatMap, List.append_nil, List.nil_append,
    List.cons_append, List.reverseAux, Prod.mk.injEq]

/-- C6: on the section-8 scenario mesh (a single open 2-point wall
referenced by cell id 2 with undeclared group 9), reconstruction raises:
the fallback reaches the `Polygon` constructor with only 2 ordered
points, which shapely rejects, so the claim that this degenerate case is
handled without raising fails on the code. -/
theorem C6_two_point_fallback_raises :
    get_root_section (.doc c6doc) =
      .error "A linearring requires at least 4 coordinates" := by
  norm_num [get_root_section, c6doc, parseWalls, parseWall, parsePoints, Attr.truthy,
    Attr.toFloat, buildGroupMap, processCells, processCell, cellType, dget, gatherLines,
    polygonizeFirst, segsOf, firstSome, extendRing, otherEnd, removeOnce, order_polygon,
    sortByAngle, insertByAngle, AngleLt, wedge, cross, centroidOf,
    List.filterMap_cons, List.filterMap_nil, List.flatten, List.sum_cons, List.sum_nil,
    List.map_cons, List.map_nil, List.length_cons, List.length_nil, List.zip,
    List.zipWith, List.tail, List.foldr, List.reverse, List.mem_cons, List.not_mem_nil,
    Option.getD, Function.comp, List.flatMap, List.append_nil, List.nil_append,
    List.cons_append, List.reverseAux, Prod.mk.injEq]

/-- C5 counterexample: in `c5doc`, group 7 is declared without a `name`
attribute and the cell's triangle closes exactly, so the record's type is
the stored `None` — not a string and not the placeholder
`unknown_group_7` the claim promises for a group without a provided
name. -/
theorem C5_counterexample :
    get_root_section (.doc c5doc) =
      .ok [{ id_cell := 1, type := none, geometry := [(0, 0), (1, 0), (0, 1)] }] ∧
    (none : Option String) ≠ some "unknown_group_7" := by
  refine ⟨?_, by simp⟩
  norm_num [get_root_section, c5doc, parseWalls, parseWall, parsePoints, Attr.truthy,
    Attr.toFloat, buildGroupMap, resolveGroupName, processCells, processCell, cellType,
    dget, gatherLines, polygonizeFirst, segsOf, firstSome, extendRing, otherEnd,
    removeOnce, order_polygon, sortByAngle, insertByAngle, AngleLt, wedge, cross,
    centroidOf, List.filterMap_cons, List.filterMap_nil, List.flatten, List.sum_cons,
    List.sum_nil, List.map_cons, List.map_nil, List.length_cons, List.length_nil,
    List.zip, List.zipWith, List.tail, List.foldr, List.reverse, List.mem_cons,
    List.not_mem_nil, Option.getD, Function.comp, List.flatMap, List.append_nil,
    List.nil_append, List.cons_append, List.reverseAux, Prod.mk.injEq]

/-- C10 counterexample: in `c10doc` the single wall's three points are
collinear; the cell passes the `is_empty` filter and is emitted with a
3-vertex polygon of zero area, refuting the claim that no entry carries a
degenerate (zero-area) polygon. -/
theorem C10_counterexample :
    get_root_section (.doc c10doc) =
      .ok [{ id_cell := 1, type := some "fallback",
             geometry := [(2, 0), (3, 0), (1, 0)] }] ∧
    polyArea2 [((2:ℚ), (0:ℚ)), (3, 0), (1, 0)] = 0 := by
  constructor
  · norm_num [get_root_section, c10doc, parseWalls, parseWall, parsePoints, Attr.truthy,
      Attr.toFloat, buildGroupMap, processCells, processCell, cellType, dget, gatherLines,
      polygonizeFirst, segsOf, firstSome, extendRing, otherEnd, removeOnce, order_polygon,
      sortByAngle, insertByAngle, AngleLt, wedge, cross, centroidOf,
      List.filterMap_cons, List.filterMap_nil, List.flatten, List.sum_cons, List.sum_nil,
      List.map_cons, List.map_nil, List.length_cons, List.length_nil, List.zip,
      List.zipWith, List.tail, List.foldr, List.reverse, List.mem_cons, List.not_mem_nil,
      Option.getD, Function.comp, List.flatMap, List.append_nil, List.nil_append,
      List.cons_append, List.reverseAux, Prod.mk.injEq]
  · norm_num [polyArea2, List.rotate, List.zip, List.zipWith, List.map_cons,
      List.sum_cons]

/-- A record emitted by the cell loop carries that cell's id and a
non-empty polygon. -/
theorem processCell_ok_some (gm : List (Int × Option String))
    (wmap : List (Int × List Pt)) (c : CellElem) (r : Record)
    (h : processCell gm wmap c = .ok (some r)) :
    r.id_cell = c.id ∧ r.geometry ≠ [] := by
  simp only [processCell] at h
  split at h
  · simp at h
  · split at h
    · rename_i ring hring
      split at h
      · simp at h
      · rename_i hne
        simp only [Except.ok.injEq, Option.some.injEq] at h
        rw [← h]
        exact ⟨rfl, ne_nil_of_not_isEmpty hne⟩
    · split at h
      · simp at h
      · rename_i poly hpoly
        split at h
        · simp at h
        · rename_i hne
          simp only [Except.ok.injEq, Option.some.injEq] at h
          rw [← h]
          exact ⟨rfl, ne_nil_of_not_isEmpty hne⟩

/-- The cell loop emits at most one record per cell, in cell order, with
ids drawn from the cells and non-empty polygons throughout. -/
theorem processCells_ok (gm : List (Int × Option String))
    (wmap : List (Int × List Pt)) :
    ∀ (cells : List CellElem) (recs : List Record),
      processCells gm wmap cells = .ok recs →
      List.Sublist (recs.map Record.id_cell) (cells.map CellElem.id) ∧
        ∀ r ∈ recs, r.geometry ≠ [] := by
  intro cells
  induction cells with
  | nil =>
    intro recs h
    simp only [processCells, Except.ok.injEq] at h
    rw [← h]
    exact ⟨List.nil_sublist _, by simp⟩
  | cons c rest ih =>
    intro recs h
    simp only [processCells] at h
    cases hc : processCell gm wmap c with
    | error e => rw [hc] at h; simp at h
    | ok r? =>
      rw [hc] at h
      cases hrest : processCells gm wmap rest with
      | error e => rw [hrest] at h; simp at h
      | ok tl =>
        rw [hrest] at h
        simp only [Except.ok.injEq] at h
        obtain ⟨hsub, hgeo⟩ := ih tl hrest
        cases r? with
        | none =>
          rw [← h]
          exact ⟨hsub.trans (List.sublist_cons_self _ _), hgeo⟩
        | some r =>
          obtain ⟨hid, hge⟩ := processCell_ok_some gm wmap c r hc
          rw [← h]
          constructor
          · simp only [List.map_cons, hid]
            exact hsub.cons₂ _
          · intro r2 hr2
            rcases List.mem_cons.mp hr2 with h1 | h2
            · rw [h1]; exact hge
            · exact hgeo r2 h2

/-- C10 (amended): for a mesh whose declared cell ids are distinct, a
successfully produced section has unique cell ids and no null or empty
polygon entry, and a cell with no contributing walls is omitted without
raising; however only emptiness is filtered — a zero-area (collinear)
polygon can still be emitted. -/
theorem C10_section_invariants (d : MechaDoc) (recs : List Record)
    (hid : ((d.cells.getD []).map CellElem.id).Nodup)
    (h : get_root_section (.doc d) = .ok recs) :
    (recs.map Record.id_cell).Nodup ∧
    (∀ r ∈ recs, r.geometry ≠ []) ∧
    (∀ (gm : List (Int × Option String)) (wm : List (Int × List Pt)) (c : CellElem),
      gatherLines wm (c.walls.getD []) = [] → processCell gm wm c = .ok none) := by
  simp only [get_root_section] at h
  cases hw : parseWalls (d.walls.getD []) with
  | error e => rw [hw] at h; simp at h
  | ok wmap =>
    rw [hw] at h
    obtain ⟨hsub, hgeo⟩ :=
      processCells_ok (buildGroupMap (d.cellgroups.getD [])) wmap (d.cells.getD []) recs h
    refine ⟨List.Nodup.sublist hsub hid, hgeo, ?_⟩
    intro gm wm c hgl
    simp [processCell, hgl]

/-- Witness for C10 (amended) at the empty document. -/
theorem C10_section_invariants_witness :
    (([] : List Record).map Record.id_cell).Nodup ∧
    (∀ r ∈ ([] : List Record), r.geometry ≠ []) ∧
    (∀ (gm : List (Int × Option String)) (wm : List (Int × List Pt)) (c : CellElem),
      gatherLines wm (c.walls.getD []) = [] → processCell gm wm c = .ok none) :=
  C10_section_invariants ⟨none, none, none⟩ [] (by simp) rfl

end Mecha

namespace Mecha

/-! ## Sweep driver (claims C1, C8, C9) -/

/-- `np.linspace a b 10` written out: the ten evenly spaced samples. -/
theorem linspace_ten (a b : ℚ) :
    linspace a b 10 =
      [a, a + (b - a) * 1 / 9, a + (b - a) * 2 / 9, a + (b - a) * 3 / 9,
       a + (b - a) * 4 / 9, a + (b - a) * 5 / 9, a + (b - a) * 6 / 9,
       a + (b - a) * 7 / 9, a + (b - a) * 8 / 9, b] := by
  have hrange : List.range 10 = [0, 1, 2, 3, 4, 5, 6, 7, 8, 9] := rfl
  simp only [linspace, hrange, List.map_cons, List.map_nil, List.cons.injEq, and_true]
  repeat' apply And.intro
  all_goals push_cast
  all_goals ring_nf

/-- C8: single mode yields exactly one value, the entered value times the
conversion factor; range mode yields exactly 10 evenly spaced values
whose first and last equal the chosen bounds times the conversion
factor, for any bounds inside the slider window from one tenth to ten
times the parameter default. -/
theorem C8_value_generation (info : ParamInfo) (v lo hi : ℚ)
    (h1 : info.default / 10 ≤ lo) (h2 : lo ≤ hi) (h3 : hi ≤ info.default * 10) :
    genValues info (.single v) = [v * info.conversion] ∧
    (genValues info (.range lo hi)).length = 10 ∧
    (genValues info (.range lo hi)).getD 0 0 = lo * info.conversion ∧
    (genValues info (.range lo hi)).getD 9 0 = hi * info.conversion ∧
    (∀ i : ℕ, i + 1 < 10 →
      (genValues info (.range lo hi)).getD (i + 1) 0 -
        (genValues info (.range lo hi)).getD i 0 =
      (hi - lo) * info.conversion / 9) := by
  have hl : genValues info (.range lo hi) =
      [lo * info.conversion,
       lo * info.conversion + (hi * info.conversion - lo * info.conversion) * 1 / 9,
       lo * info.conversion + (hi * info.conversion - lo * info.conversion) * 2 / 9,
       lo * info.conversion + (hi * info.conversion - lo * info.conversion) * 3 / 9,
       lo * info.conversion + (hi * info.conversion - lo * info.conversion) * 4 / 9,
       lo * info.conversion + (hi * info.conversion - lo * info.conversion) * 5 / 9,
       lo * info.conversion + (hi * info.conversion - lo * info.conversion) * 6 / 9,
       lo * info.conversion + (hi * info.conversion - lo * info.conversion) * 7 / 9,
       lo * info.conversion + (hi * info.conversion - lo * info.conversion) * 8 / 9,
       hi * info.conversion] := linspace_ten (lo * info.conversion) (hi * info.conversion)
  refine ⟨rfl, ?_, ?_, ?_, ?_⟩
  · rw [hl]; rfl
  · rw [hl]; rfl
  · rw [hl]; rfl
  · intro i hi10
    have hi9 : i < 9 := by omega
    interval_cases i <;> rw [hl] <;> norm_num <;> ring

/-- Witness for C8 at the registry's first parameter (cell wall
thickness, default 1.5, conversion 1) with the full slider window. -/
theorem C8_value_generation_witness :
    genValues ⟨1.5, 1⟩ (.single 2) = [2 * (1:ℚ)] ∧
    (genValues ⟨1.5, 1⟩ (.range 0.15 15)).length = 10 :=
  ⟨(C8_value_generation ⟨1.5, 1⟩ 2 0.15 15 (by norm_num) (by norm_num) (by norm_num)).1,
   (C8_value_generation ⟨1.5, 1⟩ 2 0.15 15 (by norm_num) (by norm_num) (by norm_num)).2.1⟩

/-- C9: the sweep over n values and k scenarios invokes the simulator
exactly n times (once per value, counted by the loop), emits exactly
n * k records, and the record list is exactly the values in generation
order, each paired in selection order with the scenarios (conductivity
read at the scenario's position in the selection). -/
theorem C9_sweep_shape (mecha : ℚ → List ℚ) (values : List ℚ)
    (scenarios : List ℕ) :
    sweepLoop mecha scenarios values =
      (values.flatMap (fun v =>
        scenarios.enum.map (fun p =>
          ({ parameter_value := v, kr := (mecha v).getD p.1 0,
             hydraulic_scenario := p.2 } : SweepResult))), values.length) ∧
    (sweepLoop mecha scenarios values).1.length =
      values.length * scenarios.length := by
  have key : ∀ vs : List ℚ,
      sweepLoop mecha scenarios vs =
        (vs.flatMap (fun v => scenarios.enum.map (fun p =>
          ({ parameter_value := v, kr := (mecha v).getD p.1 0,
             hydraulic_scenario := p.2 } : SweepResult))), vs.length) := by
    intro vs
    induction vs with
    | nil => rfl
    | cons v rest ihv =>
      simp only [sweepLoop, ihv, List.flatMap_cons, List.length_cons]
  refine ⟨key values, ?_⟩
  rw [key values]
  induction values with
  | nil => simp
  | cons v rest ihv =>
    simp only [List.flatMap_cons, List.length_append, List.length_map,
      List.enum_length, List.length_cons] at *
    rw [ihv]
    ring

/-- C1: with the spec-modelled simulator (output vector indexed by
scenario identifier) and the single selected scenario id 3, app.py emits
the conductivity at position 0 of the vector (the scenario's position in
the selection list), namely 10, although the entry at index 3 — the one
the scenario identifier designates — is 40. -/
theorem C1_conductivity_indexed_by_position :
    sweepLoop mechaSpecModel [3] [1] =
      ([{ parameter_value := 1, kr := 10, hydraulic_scenario := 3 }], 1) ∧
    (mechaSpecModel 1).getD 3 0 = 40 ∧
    ((10 : ℚ) ≠ 40) := by
  refine ⟨rfl, rfl, by norm_num⟩

end Mecha
